import Mathlib

/-!
Shallow embedding of the scoring engine of `src/decihier.py`
(the `psychology_predictor` function and its question-set resolution),
together with theorems checking the natural-language specification of
the repository against this embedding.

Modelling conventions:

* A Python `dict` whose keys are strings is modelled as an association
  list `List (String × _)` in insertion order; `dict` lookup is
  `List.lookup` (keys are unique in the source data, so first-match
  lookup agrees with `dict` semantics).
* An answer JSON object may be missing a field.  Accessing a missing
  key raises `KeyError` in Python, which the source does NOT catch
  (its `try` only catches `ValueError` and `TypeError`), so a missing
  field makes the whole computation raise.  A present field may fail
  `int(...)` parsing, which IS caught and makes the engine skip the
  answer.  We model a field as `Option (Option Int)`:
  `none` = field absent (uncaught `KeyError`),
  `some none` = field present but not parseable as an integer
  (caught `ValueError`/`TypeError`),
  `some (some n)` = field parses to the integer `n`.
* `skill_scores[trait_key] += score` raises an uncaught `KeyError`
  when `trait_key` is not one of the five initialised trait keys; this
  is modelled by `SkillScores.addTrait` returning `none`.
* Python 3 `round` on the quotient is modelled as round-half-to-even
  of the exact rational value, computed in integer arithmetic
  (`pyRound`); `specRound` states the same on `ℚ` and is proved to
  agree.
* The outcome of a call is `PredResult`: `notFound` models the
  source's `return None` (no / empty question set), `exn` models an
  uncaught exception escaping the call, and `ok r` a returned report.
  Report fields that merely echo ambient session/config state
  (`jobTitle`, `candidateName`, `testId`, `passThreshold`, `traitMap`)
  carry no scoring logic and are omitted from the `Report` structure.
-/

namespace DecisiveHiring

/-- One option of a question: display text and its per-trait score map
(`option['score']`, a dict from trait key to integer, in insertion order). -/
structure QOption where
  text : String
  score : List (String × Int)
deriving Repr, DecidableEq

/-- A question of a question set (`{id, prompt, options}`). -/
structure Question where
  id : String
  prompt : String
  options : List QOption
deriving Repr, DecidableEq

/-- A submitted answer.  Each field is `none` when the key is absent from
the answer object, `some none` when present but not parseable as an
integer, and `some (some n)` when it parses (see the module docstring).
`questionId` is compared for equality only, so it is kept as an optional
string. -/
structure Answer where
  questionId : Option String
  selectedOptionIndex : Option (Option Int)
  timeTakenMs : Option (Option Int)
deriving Repr, DecidableEq

/-- The running `skill_scores` dict, with its five fixed keys. -/
structure SkillScores where
  TA : Int
  SL : Int
  ER : Int
  BP : Int
  BS : Int
deriving Repr, DecidableEq

/-- The running `behavioral_summary` dict. -/
structure BehavioralSummary where
  fastResponses : Nat
  slowResponses : Nat
  optimalResponses : Nat
  totalTimeMs : Int
deriving Repr, DecidableEq

/-- One entry of `detailed_results` (the constant `traitMap` echo field is
omitted). -/
structure DetailedResult where
  questionId : String
  prompt : String
  chosenOptionText : String
  rawScoreImpact : List (String × Int)
  timeTakenMs : Int
  timeBehavior : String
deriving Repr, DecidableEq

/-- The mutable state threaded through the per-answer loop of
`psychology_predictor`. -/
structure ScoreState where
  totalRawScore : Int
  skills : SkillScores
  summary : BehavioralSummary
  details : List DetailedResult
  maxTraitBase : Int
deriving Repr, DecidableEq

/-- The returned score report (scoring-relevant fields). -/
structure Report where
  totalScore : Int
  skillScores : SkillScores
  behavioralSummary : BehavioralSummary
  detailedResults : List DetailedResult
deriving Repr, DecidableEq

/-- Outcome of a `psychology_predictor` call: `notFound` = `return None`,
`exn` = an uncaught exception escapes, `ok r` = a report is returned. -/
inductive PredResult where
  | notFound
  | exn
  | ok (r : Report)
deriving Repr, DecidableEq

/-- The constant `TIME_THRESHOLDS['TOO_FAST']`. -/
def TIME_TOO_FAST : Int := 15000

/-- The constant `TIME_THRESHOLDS['OPTIMAL_MIN']`. -/
def TIME_OPTIMAL_MIN : Int := 30000

/-- The constant `TIME_THRESHOLDS['OPTIMAL_MAX']`. -/
def TIME_OPTIMAL_MAX : Int := 60000

/-- Python 3 `round` applied to the exact value `a / b` (callers pass
`0 < b`): round to the nearest integer with ties to even, written in pure
integer arithmetic (`Int.fdiv` is floor division, so for `0 < b` the
remainder `r = a - (a.fdiv b) * b` satisfies `0 ≤ r < b`, and the
fractional part `r / b` compares to `1 / 2` exactly as `2 * r` compares
to `b`).  The source computes `round` on the Python float quotient; the
embedding uses the exact rational value. -/
def pyRound (a b : Int) : Int :=
  let f : Int := Int.fdiv a b
  let r : Int := a - f * b
  if 2 * r < b then f
  else if b < 2 * r then f + 1
  else if f % 2 = 0 then f else f + 1

/-- The specification's `round(x)` on an exact rational: nearest integer,
ties to even.  `pyRound` is proved to implement this on quotients of
integers with positive denominator (`pyRound_eq_specRound`). -/
def specRound (q : ℚ) : Int :=
  if q - ⌊q⌋ < 1/2 then ⌊q⌋
  else if 1/2 < q - ⌊q⌋ then ⌊q⌋ + 1
  else if ⌊q⌋ % 2 = 0 then ⌊q⌋ else ⌊q⌋ + 1

/-- The clamp `max(0, min(100, x))` applied to every published score. -/
def clamp (x : Int) : Int := max 0 (min 100 x)

/-- The effect of the time-penalty block (source lines 111-133) as a
function of the parsed `time_taken`: the `time_score` added to the raw
total, the side-adjustments to the `TA`/`SL`/`ER`/`BS` skill totals, the
behavioral-counter increments, and the `time_behavior` label (initialised
to `'Optimal'` and only overwritten in the first two branches). -/
structure TimeEffect where
  timeScore : Int
  dTA : Int
  dSL : Int
  dER : Int
  dBS : Int
  dFast : Nat
  dSlow : Nat
  dOpt : Nat
  label : String
deriving Repr, DecidableEq

/-- The `if / elif / elif` chain classifying `time_taken` (source lines
114-133), with the default label `'Optimal'` and defaults of zero when no
branch fires. -/
def timeEffect (t : Int) : TimeEffect :=
  if t < TIME_TOO_FAST then
    { timeScore := -20, dTA := 0, dSL := -5, dER := -5, dBS := 5,
      dFast := 1, dSlow := 0, dOpt := 0,
      label := "Too Fast (Lack of Contemplation)" }
  else if TIME_OPTIMAL_MAX < t then
    { timeScore := -20, dTA := -5, dSL := 0, dER := 0, dBS := -10,
      dFast := 0, dSlow := 1, dOpt := 0,
      label := "Too Slow (Inefficiency)" }
  else if TIME_OPTIMAL_MIN ≤ t ∧ t ≤ TIME_OPTIMAL_MAX then
    { timeScore := 5, dTA := 0, dSL := 0, dER := 0, dBS := 5,
      dFast := 0, dSlow := 0, dOpt := 1, label := "Optimal" }
  else
    { timeScore := 0, dTA := 0, dSL := 0, dER := 0, dBS := 0,
      dFast := 0, dSlow := 0, dOpt := 0, label := "Optimal" }

/-- The update `skill_scores[k] += v`: it succeeds exactly when `k` is one of the five
initialised trait keys, otherwise it is an uncaught `KeyError` (`none`). -/
def SkillScores.addTrait (s : SkillScores) (k : String) (v : Int) :
    Option SkillScores :=
  if k = "TA" then some { s with TA := s.TA + v }
  else if k = "SL" then some { s with SL := s.SL + v }
  else if k = "ER" then some { s with ER := s.ER + v }
  else if k = "BP" then some { s with BP := s.BP + v }
  else if k = "BS" then some { s with BS := s.BS + v }
  else none

/-- The `for trait_key, score in option_score.items()` loop (source lines
107-109): threads the skill totals and the per-question point total,
raising (`none`) at the first unknown trait key. -/
def applyScoreMap (s : SkillScores) (pts : Int) :
    List (String × Int) → Option (SkillScores × Int)
  | [] => some (s, pts)
  | (k, v) :: rest =>
    match s.addTrait k v with
    | none => none
    | some s2 => applyScoreMap s2 (pts + v) rest

/-- All-zero skill totals (`skill_scores` after initialisation). -/
def zeroSkills : SkillScores := ⟨0, 0, 0, 0, 0⟩

/-- All-zero behavioral summary. -/
def zeroSummary : BehavioralSummary := ⟨0, 0, 0, 0⟩

/-- The loop state before the first answer is processed. -/
def initState : ScoreState := ⟨0, zeroSkills, zeroSummary, [], 0⟩

/-- One iteration of the `for answer in answers` loop (source lines
83-145).  Returns `none` when the iteration raises an uncaught exception
(missing answer key, or unknown trait key in the chosen option's score
map), otherwise the updated state.  When the question set is empty the
lookup generator never evaluates its predicate, so no field of the answer
is touched and the iteration is a no-op — the caller only reaches the
loop with a non-empty set, but the function is total. -/
def stepAnswer (qs : List Question) (st : ScoreState) (a : Answer) :
    Option ScoreState :=
  match qs with
  | [] => some st
  | _ :: _ =>
    match a.questionId with
    | none => none
    | some qid =>
      match qs.find? (fun q => q.id == qid) with
      | none => some st
      | some question =>
        let stB : ScoreState := { st with maxTraitBase := st.maxTraitBase + 10 }
        match a.selectedOptionIndex with
        | none => none
        | some none => some stB
        | some (some oi) =>
          match a.timeTakenMs with
          | none => none
          | some none => some stB
          | some (some t) =>
          if hb : 0 ≤ oi ∧ oi < (question.options.length : Int) then
            let opt := question.options.get ⟨oi.toNat, by omega⟩
            match applyScoreMap stB.skills 0 opt.score with
            | none => none
            | some (s2, pts) =>
              let te := timeEffect t
              some
                { totalRawScore := stB.totalRawScore + (pts + te.timeScore)
                  skills := ⟨s2.TA + te.dTA, s2.SL + te.dSL, s2.ER + te.dER,
                             s2.BP, s2.BS + te.dBS⟩
                  summary := ⟨stB.summary.fastResponses + te.dFast,
                              stB.summary.slowResponses + te.dSlow,
                              stB.summary.optimalResponses + te.dOpt,
                              stB.summary.totalTimeMs + t⟩
                  details := stB.details ++
                    [⟨qid, question.prompt, opt.text, opt.score, t, te.label⟩]
                  maxTraitBase := stB.maxTraitBase }
          else some stB

/-- The whole `for answer in answers` loop, propagating an uncaught
exception. -/
def runAnswers (qs : List Question) : ScoreState → List Answer → Option ScoreState
  | st, [] => some st
  | st, a :: rest =>
    match stepAnswer qs st a with
    | none => none
    | some st2 => runAnswers qs st2 rest

/-- Post-loop normalisation of one non-BS trait total (source lines
156-163): ratio against `max_possible_trait_score_base` when that base is
positive, else `0`, then clamped. -/
def normTrait (raw base : Int) : Int :=
  clamp (if 0 < base then pyRound (raw * 100) base else 0)

/-- The post-loop section of `psychology_predictor` (source lines
147-178): total-score normalisation against `len(job_questions) * 15`,
per-trait normalisation, and assembly of the report. -/
def finalize (qs : List Question) (st : ScoreState) : Report :=
  let maxPossible : Int := (qs.length : Int) * 15
  let normalized : Int :=
    clamp (pyRound (st.totalRawScore * 100) maxPossible)
  { totalScore := normalized
    skillScores := ⟨normTrait st.skills.TA st.maxTraitBase,
                    normTrait st.skills.SL st.maxTraitBase,
                    normTrait st.skills.ER st.maxTraitBase,
                    normTrait st.skills.BP st.maxTraitBase,
                    clamp st.skills.BS⟩
    behavioralSummary := st.summary
    detailedResults := st.details }

/-- Question-set resolution (source lines 59-63): the session's test id,
when it is a key of `GENERATED_TESTS`, wins over the canonical job
profile selected by `job_key`. -/
def resolveQuestionSet (testId : Option String) (jobKey : String)
    (generatedTests : List (String × List Question))
    (jobProfiles : List (String × List Question)) : Option (List Question) :=
  match testId.bind (fun tid => generatedTests.lookup tid) with
  | some qs => some qs
  | none => jobProfiles.lookup jobKey

/-- The full `psychology_predictor` (source lines 57-178): resolve the
question set (`None` and the empty list are both falsy, giving
`return None`), run the per-answer loop, then normalise. -/
def psychology_predictor (testId : Option String) (jobKey : String)
    (generatedTests : List (String × List Question))
    (jobProfiles : List (String × List Question))
    (answers : List Answer) : PredResult :=
  match resolveQuestionSet testId jobKey generatedTests jobProfiles with
  | none => PredResult.notFound
  | some [] => PredResult.notFound
  | some qs =>
    match runAnswers qs initState answers with
    | none => PredResult.exn
    | some st => PredResult.ok (finalize qs st)

/-- Componentwise sum of two skill-score records. -/
def SkillScores.add (s1 s2 : SkillScores) : SkillScores :=
  ⟨s1.TA + s2.TA, s1.SL + s2.SL, s1.ER + s2.ER, s1.BP + s2.BP, s1.BS + s2.BS⟩

/-- Combine a loop state with a per-answer contribution: scalar fields
add, detail lists concatenate. -/
def addState (st d : ScoreState) : ScoreState :=
  ⟨st.totalRawScore + d.totalRawScore,
   SkillScores.add st.skills d.skills,
   ⟨st.summary.fastResponses + d.summary.fastResponses,
    st.summary.slowResponses + d.summary.slowResponses,
    st.summary.optimalResponses + d.summary.optimalResponses,
    st.summary.totalTimeMs + d.summary.totalTimeMs⟩,
   st.details ++ d.details,
   st.maxTraitBase + d.maxTraitBase⟩

/-- Two loop states agree on every aggregate (everything except the order
of the detail records). -/
def aggEq (s1 s2 : ScoreState) : Prop :=
  s1.totalRawScore = s2.totalRawScore ∧ s1.skills = s2.skills ∧
  s1.summary = s2.summary ∧ s1.maxTraitBase = s2.maxTraitBase ∧
  s1.details.Perm s2.details

/-- The five trait keys initialised in `skill_scores`. -/
def traitKeys : List String := ["TA", "SL", "ER", "BP", "BS"]

/-- Every score map of every option of every question mentions only the
five initialised trait keys. -/
def goodSet (qs : List Question) : Prop :=
  ∀ q ∈ qs, ∀ o ∈ q.options, ∀ kv ∈ o.score, kv.1 ∈ traitKeys

/-- Every question set of a key-indexed table is `goodSet`. -/
def goodTests (l : List (String × List Question)) : Prop :=
  ∀ kv ∈ l, goodSet kv.2

/-- The answer object carries all three expected keys (their values may
still fail integer parsing). -/
def completeAnswer (a : Answer) : Prop :=
  a.questionId ≠ none ∧ a.selectedOptionIndex ≠ none ∧ a.timeTakenMs ≠ none

/-- Consistency of the behavioral summary with the detail list: the time
total is the sum of the recorded times, and at most one counter was
incremented per detail record. -/
def summaryInv (st : ScoreState) : Prop :=
  st.summary.totalTimeMs = (st.details.map (fun d => d.timeTakenMs)).sum ∧
  st.summary.fastResponses + st.summary.slowResponses +
    st.summary.optimalResponses ≤ st.details.length

theorem clamp_nonneg (x : Int) : 0 ≤ clamp x := le_max_left 0 _

theorem clamp_le_100 (x : Int) : clamp x ≤ 100 :=
  max_le (by norm_num) (min_le_left 100 x)

theorem normTrait_eq (raw base : Int) :
    normTrait raw base =
      (if 0 < base then max 0 (min 100 (pyRound (raw * 100) base))
       else 0) := by
  by_cases h : 0 < base <;> simp [normTrait, clamp, h]

theorem addState_init_right (st : ScoreState) : addState st initState = st := by
  cases st with
  | mk raw sk sm dt mb =>
    cases sk
    cases sm
    simp [addState, initState, SkillScores.add, zeroSkills, zeroSummary]

theorem addState_init_left (d : ScoreState) : addState initState d = d := by
  cases d with
  | mk raw sk sm dt mb =>
    cases sk
    cases sm
    simp [addState, initState, SkillScores.add, zeroSkills, zeroSummary]

theorem addTrait_add (s s' : SkillScores) (k : String) (v : Int) :
    (s.add s').addTrait k v = (s'.addTrait k v).map (fun x => s.add x) := by
  cases s
  cases s'
  unfold SkillScores.addTrait
  split_ifs <;> simp [SkillScores.add] <;> ring

theorem applyScoreMap_shift (l : List (String × Int)) :
    ∀ (s s' : SkillScores) (p p' : Int),
      applyScoreMap (s.add s') (p + p') l =
        (applyScoreMap s' p' l).map (fun z => (s.add z.1, p + z.2)) := by
  induction l with
  | nil => intro s s' p p'; simp [applyScoreMap]
  | cons kv rest ih =>
    intro s s' p p'
    obtain ⟨k, v⟩ := kv
    cases h : s'.addTrait k v with
    | none =>
      have h2 : (s.add s').addTrait k v = none := by rw [addTrait_add, h]; rfl
      simp [applyScoreMap, h, h2]
    | some s2 =>
      have h2 : (s.add s').addTrait k v = some (s.add s2) := by
        rw [addTrait_add, h]; rfl
      simp only [applyScoreMap, h, h2]
      have hpv : p + p' + v = p + (p' + v) := by ring
      rw [hpv, ih]

theorem add_zeroSkills (s : SkillScores) : s.add zeroSkills = s := by
  cases s; simp [SkillScores.add, zeroSkills]

theorem applyScoreMap_from_zero (l : List (String × Int)) (s : SkillScores) :
    applyScoreMap s 0 l =
      (applyScoreMap zeroSkills 0 l).map (fun z => (s.add z.1, z.2)) := by
  have h := applyScoreMap_shift l s zeroSkills 0 0
  rw [add_zeroSkills] at h
  simpa using h

theorem stepAnswer_delta (qs : List Question) (st : ScoreState) (a : Answer) :
    stepAnswer qs st a = (stepAnswer qs initState a).map (addState st) := by
  cases qs with
  | nil => simp [stepAnswer, addState_init_right]
  | cons q rest =>
    cases hid : a.questionId with
    | none => simp [stepAnswer, hid]
    | some qid =>
      cases hfind : (q :: rest).find? (fun qq => qq.id == qid) with
      | none => simp [stepAnswer, hid, hfind, addState_init_right]
      | some question =>
        cases hsel : a.selectedOptionIndex with
        | none => simp [stepAnswer, hid, hfind, hsel]
        | some selv =>
          cases selv with
          | none =>
            simp [stepAnswer, hid, hfind, hsel, addState, initState,
              SkillScores.add, zeroSkills, zeroSummary]
          | some oi =>
            cases htm : a.timeTakenMs with
            | none => simp [stepAnswer, hid, hfind, hsel, htm]
            | some tmv =>
              cases tmv with
              | none =>
                simp [stepAnswer, hid, hfind, hsel, htm, addState, initState,
                  SkillScores.add, zeroSkills, zeroSummary]
              | some t =>
                by_cases hb : 0 ≤ oi ∧ oi < (question.options.length : Int)
                · simp only [stepAnswer, hid, hfind, hsel, htm, dif_pos hb,
                    initState]
                  rw [applyScoreMap_from_zero]
                  cases happ : applyScoreMap zeroSkills 0
                      ((question.options.get
                        ⟨oi.toNat, by omega⟩).score) with
                  | none => simp [happ]
                  | some z =>
                    obtain ⟨z1, z2⟩ := z
                    simp [happ, addState, SkillScores.add, zeroSkills,
                      zeroSummary, ScoreState.mk.injEq, SkillScores.mk.injEq,
                      BehavioralSummary.mk.injEq]
                    omega
                · simp [stepAnswer, hid, hfind, hsel, htm, dif_neg hb,
                    addState, initState, SkillScores.add, zeroSkills,
                    zeroSummary]

theorem aggEq_refl (s : ScoreState) : aggEq s s :=
  ⟨rfl, rfl, rfl, rfl, List.Perm.refl _⟩

theorem aggEq_trans {s1 s2 s3 : ScoreState} (h1 : aggEq s1 s2)
    (h2 : aggEq s2 s3) : aggEq s1 s3 :=
  ⟨h1.1.trans h2.1, h1.2.1.trans h2.2.1, h1.2.2.1.trans h2.2.2.1,
   h1.2.2.2.1.trans h2.2.2.2.1, h1.2.2.2.2.trans h2.2.2.2.2⟩

theorem aggEq_addState {s1 s2 : ScoreState} (d : ScoreState)
    (h : aggEq s1 s2) : aggEq (addState s1 d) (addState s2 d) := by
  obtain ⟨h1, h2, h3, h4, h5⟩ := h
  exact ⟨by simp [addState, h1], by simp [addState, h2],
    by simp [addState, h3], by simp [addState, h4],
    h5.append_right _⟩

theorem aggEq_swap (st da db : ScoreState) :
    aggEq (addState (addState st da) db) (addState (addState st db) da) := by
  refine ⟨by simp [addState]; ring, ?_, ?_, by simp [addState]; ring, ?_⟩
  · simp [addState, SkillScores.add, SkillScores.mk.injEq]
    omega
  · simp [addState, BehavioralSummary.mk.injEq]
    omega
  · show ((st.details ++ da.details) ++ db.details).Perm
      ((st.details ++ db.details) ++ da.details)
    rw [List.append_assoc, List.append_assoc]
    exact List.perm_append_comm.append_left st.details

theorem runAnswers_cons_some {qs : List Question} {st : ScoreState}
    {a : Answer} {t : List Answer} {r : ScoreState}
    (h : runAnswers qs st (a :: t) = some r) :
    ∃ st2, stepAnswer qs st a = some st2 ∧ runAnswers qs st2 t = some r := by
  rw [runAnswers] at h
  cases hd : stepAnswer qs st a with
  | none => rw [hd] at h; simp at h
  | some st2 => rw [hd] at h; exact ⟨st2, rfl, h⟩

theorem runAnswers_isSome_iff (qs : List Question) (l : List Answer) :
    ∀ st : ScoreState, (runAnswers qs st l).isSome ↔
      ∀ a ∈ l, (stepAnswer qs initState a).isSome := by
  induction l with
  | nil => intro st; simp [runAnswers]
  | cons a t ih =>
    intro st
    rw [runAnswers, stepAnswer_delta]
    cases hd : stepAnswer qs initState a with
    | none => simp [hd]
    | some d => simp [hd, ih]

theorem runAnswers_aggEq (qs : List Question) (l : List Answer) :
    ∀ s1 s2 r1 r2, aggEq s1 s2 →
      runAnswers qs s1 l = some r1 → runAnswers qs s2 l = some r2 →
      aggEq r1 r2 := by
  induction l with
  | nil =>
    intro s1 s2 r1 r2 h h1 h2
    rw [runAnswers] at h1 h2
    obtain rfl : s1 = r1 := by injection h1
    obtain rfl : s2 = r2 := by injection h2
    exact h
  | cons a t ih =>
    intro s1 s2 r1 r2 h h1 h2
    obtain ⟨m1, hd1, h1t⟩ := runAnswers_cons_some h1
    obtain ⟨m2, hd2, h2t⟩ := runAnswers_cons_some h2
    rw [stepAnswer_delta] at hd1 hd2
    cases hd : stepAnswer qs initState a with
    | none => rw [hd] at hd1; simp at hd1
    | some d =>
      rw [hd] at hd1 hd2
      simp at hd1 hd2
      subst hd1; subst hd2
      exact ih _ _ _ _ (aggEq_addState d h) h1t h2t

theorem runAnswers_perm_aggEq (qs : List Question) {l1 l2 : List Answer}
    (hp : l1.Perm l2) :
    ∀ st r1 r2, runAnswers qs st l1 = some r1 →
      runAnswers qs st l2 = some r2 → aggEq r1 r2 := by
  induction hp with
  | nil =>
    intro st r1 r2 h1 h2
    rw [runAnswers] at h1 h2
    obtain rfl : st = r1 := by injection h1
    obtain rfl : st = r2 := by injection h2
    exact aggEq_refl _
  | cons x h ih =>
    intro st r1 r2 h1 h2
    obtain ⟨m1, hd1, h1t⟩ := runAnswers_cons_some h1
    obtain ⟨m2, hd2, h2t⟩ := runAnswers_cons_some h2
    rw [hd1] at hd2
    obtain rfl : m1 = m2 := by injection hd2
    exact ih _ _ _ h1t h2t
  | swap x y t =>
    intro st r1 r2 h1 h2
    obtain ⟨sy, hdy, h1t⟩ := runAnswers_cons_some h1
    obtain ⟨syx, hdyx, h1tt⟩ := runAnswers_cons_some h1t
    obtain ⟨sx, hdx, h2t⟩ := runAnswers_cons_some h2
    obtain ⟨sxy, hdxy, h2tt⟩ := runAnswers_cons_some h2t
    rw [stepAnswer_delta] at hdy hdyx hdx hdxy
    cases hDy : stepAnswer qs initState y with
    | none => rw [hDy] at hdy; simp at hdy
    | some dy =>
      cases hDx : stepAnswer qs initState x with
      | none => rw [hDx] at hdx; simp at hdx
      | some dx =>
        rw [hDy] at hdy; rw [hDx] at hdyx; rw [hDx] at hdx; rw [hDy] at hdxy
        simp at hdy hdyx hdx hdxy
        subst hdy; subst hdx; subst hdyx; subst hdxy
        exact runAnswers_aggEq qs t _ _ _ _ (aggEq_swap st dy dx) h1tt h2tt
  | @trans la lb lc h12 h23 ih1 ih2 =>
    intro st r1 r2 h1 h2
    have hs : (runAnswers qs st lb).isSome := by
      rw [runAnswers_isSome_iff]
      intro a ha
      exact (runAnswers_isSome_iff qs _ st).mp
        (by rw [h1]; rfl) a (h12.mem_iff.mpr ha)
    obtain ⟨mid, hmid⟩ := Option.isSome_iff_exists.mp hs
    exact aggEq_trans (ih1 st r1 mid h1 hmid) (ih2 st mid r2 hmid h2)

theorem timeEffect_counters (t : Int) :
    (timeEffect t).dFast + (timeEffect t).dSlow + (timeEffect t).dOpt ≤ 1 := by
  unfold timeEffect
  split_ifs <;> simp

theorem summaryInv_init : summaryInv initState := by
  simp [summaryInv, initState, zeroSummary]

theorem summaryInv_addState {st d : ScoreState} (h1 : summaryInv st)
    (h2 : summaryInv d) : summaryInv (addState st d) := by
  obtain ⟨ha, hb⟩ := h1
  obtain ⟨hc, hd⟩ := h2
  constructor
  · simp [addState, ha, hc]
  · simp only [addState, List.length_append]
    omega

theorem stepAnswer_delta_summaryInv (qs : List Question) (a : Answer)
    {d : ScoreState} (h : stepAnswer qs initState a = some d) :
    summaryInv d := by
  cases qs with
  | nil =>
    simp [stepAnswer] at h
    subst h; exact summaryInv_init
  | cons q rest =>
    cases hid : a.questionId with
    | none => simp [stepAnswer, hid] at h
    | some qid =>
      cases hfind : (q :: rest).find? (fun qq => qq.id == qid) with
      | none =>
        simp [stepAnswer, hid, hfind] at h
        subst h; exact summaryInv_init
      | some question =>
        cases hsel : a.selectedOptionIndex with
        | none => simp [stepAnswer, hid, hfind, hsel] at h
        | some selv =>
          cases selv with
          | none =>
            simp [stepAnswer, hid, hfind, hsel] at h
            subst h
            simp [summaryInv, initState, zeroSummary]
          | some oi =>
            cases htm : a.timeTakenMs with
            | none => simp [stepAnswer, hid, hfind, hsel, htm] at h
            | some tmv =>
              cases tmv with
              | none =>
                simp [stepAnswer, hid, hfind, hsel, htm] at h
                subst h
                simp [summaryInv, initState, zeroSummary]
              | some t =>
                by_cases hb : 0 ≤ oi ∧ oi < (question.options.length : Int)
                · simp only [stepAnswer, hid, hfind, hsel, htm,
                    dif_pos hb] at h
                  cases happ : applyScoreMap
                      ({ initState with
                          maxTraitBase := initState.maxTraitBase + 10 } :
                        ScoreState).skills 0
                      ((question.options.get ⟨oi.toNat, by omega⟩).score) with
                  | none => rw [happ] at h; simp at h
                  | some z =>
                    obtain ⟨z1, z2⟩ := z
                    rw [happ] at h
                    simp at h
                    subst h
                    constructor
                    · simp [initState, zeroSummary]
                    · simp [initState, zeroSummary]
                      have := timeEffect_counters t
                      omega
                · simp only [stepAnswer, hid, hfind, hsel, htm,
                    dif_neg hb] at h
                  simp at h
                  subst h
                  simp [summaryInv, initState, zeroSummary]

theorem runAnswers_summaryInv (qs : List Question) (l : List Answer) :
    ∀ st r, summaryInv st → runAnswers qs st l = some r → summaryInv r := by
  induction l with
  | nil =>
    intro st r h hr
    rw [runAnswers] at hr
    obtain rfl : st = r := by injection hr
    exact h
  | cons a t ih =>
    intro st r h hr
    obtain ⟨m, hd, ht⟩ := runAnswers_cons_some hr
    rw [stepAnswer_delta] at hd
    cases hD : stepAnswer qs initState a with
    | none => rw [hD] at hd; simp at hd
    | some dlt =>
      rw [hD] at hd
      simp at hd
      subst hd
      exact ih _ _
        (summaryInv_addState h (stepAnswer_delta_summaryInv qs a hD)) ht

theorem predictor_ok_inv {tid : Option String} {jk : String}
    {gts jps : List (String × List Question)} {answers : List Answer}
    {r : Report}
    (h : psychology_predictor tid jk gts jps answers = PredResult.ok r) :
    ∃ q rest st, resolveQuestionSet tid jk gts jps = some (q :: rest) ∧
      runAnswers (q :: rest) initState answers = some st ∧
      r = finalize (q :: rest) st := by
  unfold psychology_predictor at h
  cases hres : resolveQuestionSet tid jk gts jps with
  | none => rw [hres] at h; simp at h
  | some qs =>
    cases qs with
    | nil => rw [hres] at h; simp at h
    | cons q rest =>
      rw [hres] at h
      have h2 : (match runAnswers (q :: rest) initState answers with
          | none => PredResult.exn
          | some st => PredResult.ok (finalize (q :: rest) st)) =
          PredResult.ok r := h
      cases hrun : runAnswers (q :: rest) initState answers with
      | none => rw [hrun] at h2; simp at h2
      | some st =>
        rw [hrun] at h2
        simp at h2
        exact ⟨q, rest, st, rfl, hrun, h2.symm⟩

theorem applyScoreMap_isSome_of_good (l : List (String × Int))
    (hl : ∀ kv ∈ l, kv.1 ∈ traitKeys) :
    ∀ s pts, (applyScoreMap s pts l).isSome := by
  induction l with
  | nil => intro s pts; simp [applyScoreMap]
  | cons kv rest ih =>
    intro s pts
    obtain ⟨k, v⟩ := kv
    have hk : k ∈ traitKeys := hl (k, v) (by simp)
    have hrest : ∀ kv ∈ rest, kv.1 ∈ traitKeys := fun kv hkv =>
      hl kv (by simp [hkv])
    simp only [traitKeys, List.mem_cons, List.not_mem_nil, or_false] at hk
    rcases hk with rfl | rfl | rfl | rfl | rfl <;>
      simpa [applyScoreMap, SkillScores.addTrait] using ih hrest _ _

theorem lookup_goodSet {l : List (String × List Question)} {k : String}
    {v : List Question} (hg : goodTests l) (h : l.lookup k = some v) :
    goodSet v := by
  induction l with
  | nil => simp [List.lookup] at h
  | cons p t ih =>
    obtain ⟨k', v'⟩ := p
    cases hbeq : (k == k') with
    | true =>
      simp only [List.lookup, hbeq] at h
      simp only [Option.some.injEq] at h
      have hgood : goodSet v' := hg (k', v') (by simp)
      rw [← h]
      exact hgood
    | false =>
      simp only [List.lookup, hbeq] at h
      exact ih (fun kv hkv => hg kv (by simp [hkv])) h

theorem resolve_goodSet {tid : Option String} {jk : String}
    {gts jps : List (String × List Question)} {qs : List Question}
    (hg : goodTests gts) (hp : goodTests jps)
    (h : resolveQuestionSet tid jk gts jps = some qs) : goodSet qs := by
  unfold resolveQuestionSet at h
  cases tid with
  | none => exact lookup_goodSet hp h
  | some t =>
    have h2 : (match gts.lookup t with
        | some q2 => some q2
        | none => jps.lookup jk) = some qs := h
    cases hl : gts.lookup t with
    | none =>
      rw [hl] at h2
      exact lookup_goodSet hp h2
    | some v =>
      rw [hl] at h2
      simp at h2
      subst h2
      exact lookup_goodSet hg hl

theorem stepAnswer_isSome_of_good {qs : List Question} {a : Answer}
    (hg : goodSet qs) (hc : completeAnswer a) (st : ScoreState) :
    (stepAnswer qs st a).isSome := by
  obtain ⟨h1, h2, h3⟩ := hc
  cases qs with
  | nil => simp [stepAnswer]
  | cons q rest =>
    cases hid : a.questionId with
    | none => exact absurd hid h1
    | some qid =>
      cases hfind : (q :: rest).find? (fun qq => qq.id == qid) with
      | none => simp [stepAnswer, hid, hfind]
      | some question =>
        have hqmem : question ∈ q :: rest := List.mem_of_find?_eq_some hfind
        cases hsel : a.selectedOptionIndex with
        | none => exact absurd hsel h2
        | some selv =>
          cases selv with
          | none => simp [stepAnswer, hid, hfind, hsel]
          | some oi =>
            cases htm : a.timeTakenMs with
            | none => exact absurd htm h3
            | some tmv =>
              cases tmv with
              | none => simp [stepAnswer, hid, hfind, hsel, htm]
              | some t =>
                by_cases hb : 0 ≤ oi ∧ oi < (question.options.length : Int)
                · simp only [stepAnswer, hid, hfind, hsel, htm, dif_pos hb]
                  have hopt : (question.options.get ⟨oi.toNat, by omega⟩) ∈
                      question.options :=
                    List.get_mem question.options oi.toNat (by omega)
                  have hkeys := hg question hqmem _ hopt
                  have hsome := applyScoreMap_isSome_of_good _ hkeys
                    ({ st with maxTraitBase := st.maxTraitBase + 10 } :
                      ScoreState).skills 0
                  split <;> simp_all
                · simp [stepAnswer, hid, hfind, hsel, htm, dif_neg hb]

theorem runAnswers_isSome_of_good {qs : List Question}
    {answers : List Answer} (hg : goodSet qs)
    (hc : ∀ a ∈ answers, completeAnswer a) (st : ScoreState) :
    (runAnswers qs st answers).isSome := by
  rw [runAnswers_isSome_iff]
  intro a ha
  exact stepAnswer_isSome_of_good hg (hc a ha) initState

theorem pyRound_zero_left (b : Int) (hb : 0 ≤ b) : pyRound 0 b = 0 := by
  simp only [pyRound, Int.zero_fdiv]
  split_ifs <;> omega

theorem finalize_init (qs : List Question) :
    finalize qs initState = ⟨0, ⟨0, 0, 0, 0, 0⟩, ⟨0, 0, 0, 0⟩, []⟩ := by
  have h0 : pyRound 0 ((qs.length : Int) * 15) = 0 :=
    pyRound_zero_left _ (by positivity)
  simp [finalize, initState, zeroSkills, zeroSummary, normTrait, clamp, h0]

theorem pyRound_eq_specRound (a b : Int) (hb : 0 < b) :
    pyRound a b = specRound ((a : ℚ) / (b : ℚ)) := by
  have hbQ : (0:ℚ) < (b:ℚ) := by exact_mod_cast hb
  have hfd : Int.fdiv a b = a / b := Int.fdiv_eq_ediv a (le_of_lt hb)
  have hmod1 : 0 ≤ a % b := Int.emod_nonneg a (ne_of_gt hb)
  have hmod2 : a % b < b := Int.emod_lt_of_pos a hb
  have hdefm : a % b = a - b * (a / b) := Int.emod_def a b
  have hcomm : b * (a / b) = (a / b) * b := mul_comm _ _
  have hfloor : ⌊(a:ℚ) / (b:ℚ)⌋ = a / b := by
    rw [Int.floor_eq_iff]
    constructor
    · rw [le_div_iff₀ hbQ]
      have h1 : (a / b) * b ≤ a := by linarith [hdefm ▸ hmod1]
      exact_mod_cast h1
    · rw [div_lt_iff₀ hbQ]
      have hexp : (a / b + 1) * b = (a / b) * b + b := by ring
      have h2 : a < (a / b + 1) * b := by
        rw [hexp]
        have := hdefm ▸ hmod2
        linarith
      exact_mod_cast h2
  have hfract : (a:ℚ) / (b:ℚ) - ((a / b : Int) : ℚ) =
      ((a - a / b * b : Int) : ℚ) / (b : ℚ) := by
    field_simp
    ring
  have hc1 : ((a:ℚ) / (b:ℚ) - ((a / b : Int) : ℚ) < 1 / 2) ↔
      (2 * (a - Int.fdiv a b * b) < b) := by
    rw [hfract, div_lt_div_iff₀ hbQ (by norm_num : (0:ℚ) < 2), hfd]
    norm_cast
    omega
  have hc2 : (1 / 2 < (a:ℚ) / (b:ℚ) - ((a / b : Int) : ℚ)) ↔
      (b < 2 * (a - Int.fdiv a b * b)) := by
    rw [hfract, div_lt_div_iff₀ (by norm_num : (0:ℚ) < 2) hbQ, hfd]
    norm_cast
    omega
  simp only [pyRound, specRound, hfloor, hfd, hc1, hc2]

theorem clamp_pyRound_eq (raw base : Int) (hb : 0 < base) :
    clamp (pyRound (raw * 100) base) =
      max 0 (min 100 (specRound ((raw : ℚ) / (base : ℚ) * 100))) := by
  rw [pyRound_eq_specRound _ _ hb]
  have harg : ((raw * 100 : Int) : ℚ) / ((base : Int) : ℚ) =
      (raw : ℚ) / (base : ℚ) * 100 := by
    push_cast
    ring
  rw [harg]
  rfl

/-- Claim C1: for every answer that passes question lookup, index parsing,
and bounds validation, the time-behavior classification of `timeTakenMs`
is exactly: `t < 15000` is TooFast (time-adjustment -20, BS += 5,
ER -= 5, SL -= 5, fastResponses incremented); `t > 60000` is TooSlow
(time-adjustment -20, TA -= 5, BS -= 10, slowResponses incremented);
`30000 <= t <= 60000` is Optimal (time-adjustment +5, BS += 5,
optimalResponses incremented); `15000 <= t < 30000` is the gap case with
the default Optimal label, adjustment 0 and no counter; and the stated
boundary values 14999 / 15000 / 30000 / 60000 / 60001 behave
accordingly.  (`timeEffect` is the classification applied by `stepAnswer`
to every answer that passes all three validations.) -/
theorem C1_time_classification :
    (∀ t : Int, t < 15000 → timeEffect t =
      ⟨-20, 0, -5, -5, 5, 1, 0, 0, "Too Fast (Lack of Contemplation)"⟩) ∧
    (∀ t : Int, 15000 ≤ t → t < 30000 → timeEffect t =
      ⟨0, 0, 0, 0, 0, 0, 0, 0, "Optimal"⟩) ∧
    (∀ t : Int, 30000 ≤ t → t ≤ 60000 → timeEffect t =
      ⟨5, 0, 0, 0, 5, 0, 0, 1, "Optimal"⟩) ∧
    (∀ t : Int, 60000 < t → timeEffect t =
      ⟨-20, -5, 0, 0, -10, 0, 1, 0, "Too Slow (Inefficiency)"⟩) ∧
    timeEffect 14999 =
      ⟨-20, 0, -5, -5, 5, 1, 0, 0, "Too Fast (Lack of Contemplation)"⟩ ∧
    timeEffect 15000 = ⟨0, 0, 0, 0, 0, 0, 0, 0, "Optimal"⟩ ∧
    timeEffect 30000 = ⟨5, 0, 0, 0, 5, 0, 0, 1, "Optimal"⟩ ∧
    timeEffect 60000 = ⟨5, 0, 0, 0, 5, 0, 0, 1, "Optimal"⟩ ∧
    timeEffect 60001 =
      ⟨-20, -5, 0, 0, -10, 0, 1, 0, "Too Slow (Inefficiency)"⟩ := by
  refine ⟨?_, ?_, ?_, ?_, by decide, by decide, by decide, by decide,
    by decide⟩
  · intro t ht
    unfold timeEffect TIME_TOO_FAST
    rw [if_pos ht]
  · intro t h1 h2
    unfold timeEffect TIME_TOO_FAST TIME_OPTIMAL_MIN TIME_OPTIMAL_MAX
    rw [if_neg (by omega), if_neg (by omega), if_neg (by omega)]
  · intro t h1 h2
    unfold timeEffect TIME_TOO_FAST TIME_OPTIMAL_MIN TIME_OPTIMAL_MAX
    rw [if_neg (by omega), if_neg (by omega), if_pos (by omega)]
  · intro t ht
    unfold timeEffect TIME_TOO_FAST TIME_OPTIMAL_MAX
    rw [if_neg (by omega), if_pos ht]

theorem C1_time_classification_witness :
    timeEffect 14998 =
      ⟨-20, 0, -5, -5, 5, 1, 0, 0, "Too Fast (Lack of Contemplation)"⟩ ∧
    timeEffect 20000 = ⟨0, 0, 0, 0, 0, 0, 0, 0, "Optimal"⟩ ∧
    timeEffect 45000 = ⟨5, 0, 0, 0, 5, 0, 0, 1, "Optimal"⟩ ∧
    timeEffect 75000 =
      ⟨-20, -5, 0, 0, -10, 0, 1, 0, "Too Slow (Inefficiency)"⟩ :=
  ⟨C1_time_classification.1 14998 (by decide),
   C1_time_classification.2.1 20000 (by decide) (by decide),
   C1_time_classification.2.2.1 45000 (by decide) (by decide),
   C1_time_classification.2.2.2.1 75000 (by decide)⟩

/-- Claim C2: an answer whose `questionId` matches a question of the set
but whose `selectedOptionIndex` or `timeTakenMs` fails integer parsing,
or whose index is out of the question's option bounds, still increments
the trait-base denominator by 10 while leaving every other component of
the loop state (raw score, trait totals, time total, behavioral counters,
detail records) unchanged. -/
theorem C2_malformed_matched_base_only (qs : List Question) (st : ScoreState)
    (a : Answer) (qid : String) (question : Question)
    (hid : a.questionId = some qid)
    (hfind : qs.find? (fun q => q.id == qid) = some question)
    (hbad : a.selectedOptionIndex = some none ∨
      (∃ oi : Int, a.selectedOptionIndex = some (some oi) ∧
        a.timeTakenMs = some none) ∨
      (∃ oi t : Int, a.selectedOptionIndex = some (some oi) ∧
        a.timeTakenMs = some (some t) ∧
        ¬(0 ≤ oi ∧ oi < (question.options.length : Int)))) :
    stepAnswer qs st a =
      some { st with maxTraitBase := st.maxTraitBase + 10 } := by
  cases qs with
  | nil => simp at hfind
  | cons q rest =>
    rcases hbad with h1 | ⟨oi, h1, h2⟩ | ⟨oi, t, h1, h2, h3⟩
    · simp [stepAnswer, hid, hfind, h1]
    · simp [stepAnswer, hid, hfind, h1, h2]
    · simp [stepAnswer, hid, hfind, h1, h2, dif_neg h3]

theorem C2_malformed_matched_base_only_witness :
    stepAnswer [⟨"q1", "p1", [⟨"o1", [("TA", 10)]⟩]⟩] initState
      ⟨some "q1", some none, some (some 1000)⟩ =
      some { initState with maxTraitBase := initState.maxTraitBase + 10 } :=
  C2_malformed_matched_base_only _ initState _ "q1" _ rfl rfl (Or.inl rfl)

/-- Claim C6: an answer whose `questionId` matches no question of the set
contributes nothing at all: the loop state (all sums, counters, details,
and the trait-base denominator) is returned unchanged. -/
theorem C6_unmatched_answer_noop (qs : List Question) (st : ScoreState)
    (a : Answer) (qid : String)
    (hid : a.questionId = some qid)
    (hfind : qs.find? (fun q => q.id == qid) = none) :
    stepAnswer qs st a = some st := by
  cases qs with
  | nil => rfl
  | cons q rest => simp [stepAnswer, hid, hfind]

theorem C6_unmatched_answer_noop_witness :
    stepAnswer [⟨"q1", "p1", [⟨"o1", [("TA", 10)]⟩]⟩] initState
      ⟨some "zz", some (some 0), some (some 1000)⟩ = some initState :=
  C6_unmatched_answer_noop _ initState _ "zz" rfl rfl

/-- Claim C3: after the loop, for a non-empty question set,
`maxPossibleScore` is the number of questions times 15 (independent of
answer validity), `totalScore` is `clamp(round(totalRawScore /
maxPossibleScore * 100), 0, 100)` with `round` half-to-even on the exact
quotient, each non-BS trait is `clamp(round(rawTotal / maxTraitBase *
100), 0, 100)` when `maxTraitBase > 0` and `0` otherwise, and the BS
score is the raw cumulative total merely clamped, never divided by
`maxTraitBase`. -/
theorem C3_normalization (qs : List Question) (st : ScoreState)
    (hqs : qs ≠ []) :
    (finalize qs st).totalScore =
      max 0 (min 100 (specRound
        ((st.totalRawScore : ℚ) / ((qs.length : ℚ) * 15) * 100))) ∧
    (finalize qs st).skillScores.TA = (if 0 < st.maxTraitBase then
        max 0 (min 100 (specRound
          ((st.skills.TA : ℚ) / (st.maxTraitBase : ℚ) * 100)))
      else 0) ∧
    (finalize qs st).skillScores.SL = (if 0 < st.maxTraitBase then
        max 0 (min 100 (specRound
          ((st.skills.SL : ℚ) / (st.maxTraitBase : ℚ) * 100)))
      else 0) ∧
    (finalize qs st).skillScores.ER = (if 0 < st.maxTraitBase then
        max 0 (min 100 (specRound
          ((st.skills.ER : ℚ) / (st.maxTraitBase : ℚ) * 100)))
      else 0) ∧
    (finalize qs st).skillScores.BP = (if 0 < st.maxTraitBase then
        max 0 (min 100 (specRound
          ((st.skills.BP : ℚ) / (st.maxTraitBase : ℚ) * 100)))
      else 0) ∧
    (finalize qs st).skillScores.BS = max 0 (min 100 st.skills.BS) := by
  have hm : (0:Int) < (qs.length : Int) * 15 := by
    have hlen : qs.length ≠ 0 := fun h => hqs (List.eq_nil_of_length_eq_zero h)
    omega
  have htrait : ∀ raw : Int, normTrait raw st.maxTraitBase =
      (if 0 < st.maxTraitBase then
        max 0 (min 100 (specRound
          ((raw : ℚ) / (st.maxTraitBase : ℚ) * 100)))
      else 0) := by
    intro raw
    by_cases hbase : 0 < st.maxTraitBase
    · rw [normTrait, if_pos hbase, if_pos hbase]
      exact clamp_pyRound_eq raw _ hbase
    · simp [normTrait, hbase, clamp]
  refine ⟨?_, htrait _, htrait _, htrait _, htrait _, rfl⟩
  show clamp (pyRound (st.totalRawScore * 100) ((qs.length : Int) * 15)) = _
  rw [clamp_pyRound_eq _ _ hm]
  have harg : (((qs.length : Int) * 15 : Int) : ℚ) = (qs.length : ℚ) * 15 := by
    push_cast
    ring
  rw [harg]

theorem C3_normalization_witness :
    (finalize [⟨"q1", "p1", [⟨"o1", [("TA", 10)]⟩]⟩]
      ⟨15, ⟨10, 0, 0, 0, 5⟩, ⟨0, 0, 1, 45000⟩, [], 10⟩).totalScore = 100 ∧
    (finalize [⟨"q1", "p1", [⟨"o1", [("TA", 10)]⟩]⟩]
      ⟨15, ⟨10, 0, 0, 0, 5⟩, ⟨0, 0, 1, 45000⟩, [], 10⟩).skillScores.BS = 5 := by
  have h := C3_normalization [⟨"q1", "p1", [⟨"o1", [("TA", 10)]⟩]⟩]
    ⟨15, ⟨10, 0, 0, 0, 5⟩, ⟨0, 0, 1, 45000⟩, [], 10⟩ (by simp)
  constructor
  · rw [h.1]
    norm_num [specRound, Int.floor_intCast]
  · rw [h.2.2.2.2.2]
    norm_num

theorem predictor_notFound_iff (tid : Option String) (jk : String)
    (gts jps : List (String × List Question)) (answers : List Answer) :
    psychology_predictor tid jk gts jps answers = PredResult.notFound ↔
      (resolveQuestionSet tid jk gts jps = none ∨
       resolveQuestionSet tid jk gts jps = some []) := by
  unfold psychology_predictor
  cases hres : resolveQuestionSet tid jk gts jps with
  | none => simp
  | some qs =>
    cases qs with
    | nil => simp
    | cons q rest =>
      constructor
      · intro hcon
        have hcon2 : (match runAnswers (q :: rest) initState answers with
            | none => PredResult.exn
            | some st => PredResult.ok (finalize (q :: rest) st)) =
            PredResult.notFound := hcon
        cases hrun : runAnswers (q :: rest) initState answers with
        | none => rw [hrun] at hcon2; exact absurd hcon2 (by simp)
        | some st => rw [hrun] at hcon2; exact absurd hcon2 (by simp)
      · rintro (hcon | hcon) <;> exact absurd hcon (by simp)

/-- Claim C5: whenever the engine returns a report, its `totalScore` and
all five trait scores lie in `[0, 100]`. -/
theorem C5_scores_bounded (tid : Option String) (jk : String)
    (gts jps : List (String × List Question)) (answers : List Answer)
    (r : Report)
    (h : psychology_predictor tid jk gts jps answers = PredResult.ok r) :
    0 ≤ r.totalScore ∧ r.totalScore ≤ 100 ∧
    0 ≤ r.skillScores.TA ∧ r.skillScores.TA ≤ 100 ∧
    0 ≤ r.skillScores.SL ∧ r.skillScores.SL ≤ 100 ∧
    0 ≤ r.skillScores.ER ∧ r.skillScores.ER ≤ 100 ∧
    0 ≤ r.skillScores.BP ∧ r.skillScores.BP ≤ 100 ∧
    0 ≤ r.skillScores.BS ∧ r.skillScores.BS ≤ 100 := by
  obtain ⟨q, rest, st, hres, hrun, hr⟩ := predictor_ok_inv h
  subst hr
  exact ⟨clamp_nonneg _, clamp_le_100 _, clamp_nonneg _, clamp_le_100 _,
    clamp_nonneg _, clamp_le_100 _, clamp_nonneg _, clamp_le_100 _,
    clamp_nonneg _, clamp_le_100 _, clamp_nonneg _, clamp_le_100 _⟩

theorem C5_scores_bounded_witness :
    0 ≤ (⟨0, ⟨0, 0, 0, 0, 0⟩, ⟨0, 0, 0, 0⟩, []⟩ : Report).totalScore ∧
      (⟨0, ⟨0, 0, 0, 0, 0⟩, ⟨0, 0, 0, 0⟩, []⟩ : Report).totalScore ≤ 100 := by
  have h := C5_scores_bounded none "r" []
    [("r", [⟨"q1", "p1", [⟨"o1", [("TA", 10)]⟩]⟩])] []
    ⟨0, ⟨0, 0, 0, 0, 0⟩, ⟨0, 0, 0, 0⟩, []⟩ (by decide)
  exact ⟨h.1, h.2.1⟩

/-- Claim C7: an empty answer list on a resolved non-empty question set
yields the zero report (totalScore 0, all trait scores 0, empty details,
zero counters and time) with no error; and `notFound` is returned exactly
when the resolved question set is absent or empty. -/
theorem C7_empty_answers (tid : Option String) (jk : String)
    (gts jps : List (String × List Question)) :
    (∀ qs, resolveQuestionSet tid jk gts jps = some qs → qs ≠ [] →
      psychology_predictor tid jk gts jps [] =
        PredResult.ok ⟨0, ⟨0, 0, 0, 0, 0⟩, ⟨0, 0, 0, 0⟩, []⟩) ∧
    (∀ answers, psychology_predictor tid jk gts jps answers =
        PredResult.notFound ↔
      (resolveQuestionSet tid jk gts jps = none ∨
       resolveQuestionSet tid jk gts jps = some [])) := by
  constructor
  · intro qs hres hne
    unfold psychology_predictor
    rw [hres]
    cases qs with
    | nil => exact absurd rfl hne
    | cons q rest =>
      show PredResult.ok (finalize (q :: rest) initState) = _
      rw [finalize_init]
  · intro answers
    exact predictor_notFound_iff tid jk gts jps answers

theorem C7_empty_answers_witness :
    psychology_predictor none "r" []
      [("r", [⟨"q1", "p1", [⟨"o1", [("TA", 10)]⟩]⟩])] [] =
      PredResult.ok ⟨0, ⟨0, 0, 0, 0, 0⟩, ⟨0, 0, 0, 0⟩, []⟩ :=
  (C7_empty_answers none "r" []
      [("r", [⟨"q1", "p1", [⟨"o1", [("TA", 10)]⟩]⟩])]).1
    [⟨"q1", "p1", [⟨"o1", [("TA", 10)]⟩]⟩] rfl (by simp)

/-- Claim C9: a test key that maps to an active generated test resolves
to that test's snapshot question set, taking precedence over the job
profiles; otherwise the job profile matching the job key is used; and
when neither matches, the call returns NotFound without scoring. -/
theorem C9_resolution_precedence (tid jk : String)
    (gts jps : List (String × List Question)) :
    (∀ qs, gts.lookup tid = some qs →
      resolveQuestionSet (some tid) jk gts jps = some qs) ∧
    (gts.lookup tid = none →
      resolveQuestionSet (some tid) jk gts jps = jps.lookup jk) ∧
    resolveQuestionSet none jk gts jps = jps.lookup jk ∧
    (gts.lookup tid = none → jps.lookup jk = none →
      ∀ answers, psychology_predictor (some tid) jk gts jps answers =
        PredResult.notFound) := by
  refine ⟨?_, ?_, rfl, ?_⟩
  · intro qs h
    unfold resolveQuestionSet
    simp [h]
  · intro h
    unfold resolveQuestionSet
    simp [h]
  · intro h1 h2 answers
    unfold psychology_predictor resolveQuestionSet
    simp [h1, h2]

theorem C9_resolution_precedence_witness :
    resolveQuestionSet (some "t1") "r"
      [("t1", [⟨"g1", "gp", [⟨"go", [("SL", 5)]⟩]⟩])]
      [("r", [⟨"q1", "p1", [⟨"o1", [("TA", 10)]⟩]⟩])] =
      some [⟨"g1", "gp", [⟨"go", [("SL", 5)]⟩]⟩] :=
  (C9_resolution_precedence "t1" "r"
      [("t1", [⟨"g1", "gp", [⟨"go", [("SL", 5)]⟩]⟩])]
      [("r", [⟨"q1", "p1", [⟨"o1", [("TA", 10)]⟩]⟩])]).1
    [⟨"g1", "gp", [⟨"go", [("SL", 5)]⟩]⟩] rfl

/-- Claim C4 as stated is false on the code: an answer whose
`questionId` matches a question but whose `selectedOptionIndex` key is
missing makes the source raise an uncaught `KeyError` (the `except`
clause catches only `ValueError` and `TypeError`), so the computation
neither returns a report nor NotFound. -/
theorem C4_counterexample :
    psychology_predictor none "r" []
      [("r", [⟨"q1", "p1", [⟨"o1", [("TA", 10)]⟩]⟩])]
      [⟨some "q1", none, some (some 1000)⟩] = PredResult.exn := by
  decide

/-- Claim C4 (amended): for every question set whose option score maps
mention only the five trait keys, and every answer list in which each
answer object carries all three keys (their values may still be
unparsable or out of bounds), the computation returns a report or
NotFound — no exception escapes, and malformed values degrade by
exclusion. -/
theorem C4_no_exception_when_wellformed (tid : Option String) (jk : String)
    (gts jps : List (String × List Question)) (answers : List Answer)
    (hg : goodTests gts) (hp : goodTests jps)
    (ha : ∀ a ∈ answers, completeAnswer a) :
    psychology_predictor tid jk gts jps answers = PredResult.notFound ∨
    ∃ r, psychology_predictor tid jk gts jps answers = PredResult.ok r := by
  unfold psychology_predictor
  cases hres : resolveQuestionSet tid jk gts jps with
  | none => exact Or.inl rfl
  | some qs =>
    cases qs with
    | nil => exact Or.inl rfl
    | cons q rest =>
      have hgood : goodSet (q :: rest) := resolve_goodSet hg hp hres
      have hrun := runAnswers_isSome_of_good hgood ha initState
      obtain ⟨st, hst⟩ := Option.isSome_iff_exists.mp hrun
      refine Or.inr ⟨finalize (q :: rest) st, ?_⟩
      show (match runAnswers (q :: rest) initState answers with
        | none => PredResult.exn
        | some st => PredResult.ok (finalize (q :: rest) st)) = _
      rw [hst]

theorem C4_no_exception_when_wellformed_witness :
    psychology_predictor none "r" []
      [("r", [⟨"q1", "p1", [⟨"o1", [("TA", 10)]⟩]⟩])]
      [⟨some "q1", some none, some (some 1000)⟩] ≠ PredResult.exn := by
  have h := C4_no_exception_when_wellformed none "r" []
    [("r", [⟨"q1", "p1", [⟨"o1", [("TA", 10)]⟩]⟩])]
    [⟨some "q1", some none, some (some 1000)⟩]
    (fun kv hkv => by simp at hkv)
    (fun kv hkv => by
      rw [List.mem_singleton] at hkv
      subst hkv
      intro q hq o ho kv2 hkv2
      rw [List.mem_singleton] at hq
      subst hq
      simp at ho
      subst ho
      simp at hkv2
      subst hkv2
      simp [traitKeys])
    (fun a haa => by
      rw [List.mem_singleton] at haa
      subst haa
      exact ⟨by simp, by simp, by simp⟩)
  rcases h with h | ⟨r, h⟩ <;> rw [h] <;> simp

/-- Claim C8: permuting the answer list leaves `totalScore`, all five
`skillScores` and the `behavioralSummary` of the resulting report
unchanged; the `detailedResults` lists are permutations of each other
(only their order may differ). -/
theorem C8_permutation_invariance (tid : Option String) (jk : String)
    (gts jps : List (String × List Question))
    (ans1 ans2 : List Answer) (r1 r2 : Report)
    (hperm : ans1.Perm ans2)
    (h1 : psychology_predictor tid jk gts jps ans1 = PredResult.ok r1)
    (h2 : psychology_predictor tid jk gts jps ans2 = PredResult.ok r2) :
    r1.totalScore = r2.totalScore ∧ r1.skillScores = r2.skillScores ∧
    r1.behavioralSummary = r2.behavioralSummary ∧
    r1.detailedResults.Perm r2.detailedResults := by
  obtain ⟨q, rest, st1, hres1, hrun1, hr1⟩ := predictor_ok_inv h1
  obtain ⟨q', rest', st2, hres2, hrun2, hr2⟩ := predictor_ok_inv h2
  rw [hres1] at hres2
  simp only [Option.some.injEq, List.cons.injEq] at hres2
  obtain ⟨rfl, rfl⟩ := hres2
  have hagg := runAnswers_perm_aggEq (q :: rest) hperm initState st1 st2
    hrun1 hrun2
  obtain ⟨ha1, ha2, ha3, ha4, ha5⟩ := hagg
  subst hr1
  subst hr2
  refine ⟨?_, ?_, ?_, ha5⟩ <;> simp [finalize, ha1, ha2, ha3, ha4]

theorem C8_permutation_invariance_witness :
    (⟨0, ⟨0, 0, 0, 0, 0⟩, ⟨0, 0, 0, 0⟩, []⟩ : Report).totalScore =
      (⟨0, ⟨0, 0, 0, 0, 0⟩, ⟨0, 0, 0, 0⟩, []⟩ : Report).totalScore ∧
    (⟨0, ⟨0, 0, 0, 0, 0⟩, ⟨0, 0, 0, 0⟩, []⟩ : Report).skillScores =
      (⟨0, ⟨0, 0, 0, 0, 0⟩, ⟨0, 0, 0, 0⟩, []⟩ : Report).skillScores ∧
    (⟨0, ⟨0, 0, 0, 0, 0⟩, ⟨0, 0, 0, 0⟩, []⟩ : Report).behavioralSummary =
      (⟨0, ⟨0, 0, 0, 0, 0⟩, ⟨0, 0, 0, 0⟩, []⟩ : Report).behavioralSummary ∧
    (⟨0, ⟨0, 0, 0, 0, 0⟩, ⟨0, 0, 0, 0⟩, []⟩ :
        Report).detailedResults.Perm
      (⟨0, ⟨0, 0, 0, 0, 0⟩, ⟨0, 0, 0, 0⟩, []⟩ : Report).detailedResults :=
  C8_permutation_invariance none "r" []
    [("r", [⟨"q1", "p1", [⟨"o1", [("TA", 10)]⟩]⟩])]
    [⟨some "x", none, none⟩, ⟨some "y", none, none⟩]
    [⟨some "y", none, none⟩, ⟨some "x", none, none⟩]
    ⟨0, ⟨0, 0, 0, 0, 0⟩, ⟨0, 0, 0, 0⟩, []⟩
    ⟨0, ⟨0, 0, 0, 0, 0⟩, ⟨0, 0, 0, 0⟩, []⟩
    (List.Perm.swap (⟨some "y", none, none⟩ : Answer)
      (⟨some "x", none, none⟩ : Answer) [])
    (by decide) (by decide)

/-- Claim C10: in every returned report, the summary's `totalTimeMs`
equals the sum of the `timeTakenMs` fields of the detail records, and
`fastResponses + slowResponses + optimalResponses` is at most the number
of detail records (each fully valid answer increments at most one
counter; gap-case answers increment none). -/
theorem C10_summary_consistency (tid : Option String) (jk : String)
    (gts jps : List (String × List Question)) (answers : List Answer)
    (r : Report)
    (h : psychology_predictor tid jk gts jps answers = PredResult.ok r) :
    r.behavioralSummary.totalTimeMs =
      (r.detailedResults.map (fun d => d.timeTakenMs)).sum ∧
    r.behavioralSummary.fastResponses + r.behavioralSummary.slowResponses +
      r.behavioralSummary.optimalResponses ≤ r.detailedResults.length := by
  obtain ⟨q, rest, st, hres, hrun, hr⟩ := predictor_ok_inv h
  subst hr
  exact runAnswers_summaryInv (q :: rest) answers initState st
    summaryInv_init hrun

theorem C10_summary_consistency_witness :
    (⟨100, ⟨100, 0, 0, 0, 5⟩, ⟨0, 0, 1, 45000⟩,
        [⟨"q1", "p1", "o1", [("TA", 10)], 45000, "Optimal"⟩]⟩ :
      Report).behavioralSummary.totalTimeMs =
      (((⟨100, ⟨100, 0, 0, 0, 5⟩, ⟨0, 0, 1, 45000⟩,
        [⟨"q1", "p1", "o1", [("TA", 10)], 45000, "Optimal"⟩]⟩ :
      Report).detailedResults.map (fun d => d.timeTakenMs)).sum) ∧
    (⟨100, ⟨100, 0, 0, 0, 5⟩, ⟨0, 0, 1, 45000⟩,
        [⟨"q1", "p1", "o1", [("TA", 10)], 45000, "Optimal"⟩]⟩ :
      Report).behavioralSummary.fastResponses +
      (⟨100, ⟨100, 0, 0, 0, 5⟩, ⟨0, 0, 1, 45000⟩,
        [⟨"q1", "p1", "o1", [("TA", 10)], 45000, "Optimal"⟩]⟩ :
      Report).behavioralSummary.slowResponses +
      (⟨100, ⟨100, 0, 0, 0, 5⟩, ⟨0, 0, 1, 45000⟩,
        [⟨"q1", "p1", "o1", [("TA", 10)], 45000, "Optimal"⟩]⟩ :
      Report).behavioralSummary.optimalResponses ≤
      (⟨100, ⟨100, 0, 0, 0, 5⟩, ⟨0, 0, 1, 45000⟩,
        [⟨"q1", "p1", "o1", [("TA", 10)], 45000, "Optimal"⟩]⟩ :
      Report).detailedResults.length :=
  C10_summary_consistency none "r" []
    [("r", [⟨"q1", "p1", [⟨"o1", [("TA", 10)]⟩]⟩])]
    [⟨some "q1", some (some 0), some (some 45000)⟩]
    ⟨100, ⟨100, 0, 0, 0, 5⟩, ⟨0, 0, 1, 45000⟩,
      [⟨"q1", "p1", "o1", [("TA", 10)], 45000, "Optimal"⟩]⟩
    (by decide)

end DecisiveHiring
